import Mathlib

/-!
Shallow embedding of the `ocel-detect-ai-hitl` repository: the review-dashboard
frontend (Queue, CaseDetail, Timeline, LLMCard, LabelCard, apiFetch), the
`v_events_unified` SQL view, and the documented LLM evidence-scope policy.
Dynamic JavaScript values are embedded as a `Json` inductive; JS numbers in the
embedded code paths carry scores and identifiers and are embedded as rationals
or integers; optional/nullable fields become `Option`.
-/

set_option maxHeartbeats 1000000

namespace OcelHitl

/-- JSON values as consumed by the frontend. JSON numbers in the embedded code
paths carry integral identifiers, embedded as integers. -/
inductive Json where
  | null : Json
  | bool : Bool → Json
  | num : Int → Json
  | str : String → Json
  | arr : List Json → Json
  | obj : List (String × Json) → Json

mutual

/-- JavaScript `String(value)` conversion on the embedded JSON values. -/
def jsString : Json → String
  | .null => "null"
  | .bool true => "true"
  | .bool false => "false"
  | .num n => toString n
  | .str s => s
  | .arr xs => jsStringList xs
  | .obj _ => "[object Object]"

/-- JavaScript `Array.prototype.toString`: elements joined with commas. -/
def jsStringList : List Json → String
  | [] => ""
  | [x] => jsStringElem x
  | x :: y :: xs => jsStringElem x ++ "," ++ jsStringList (y :: xs)

/-- Inside an array, `null` elements stringify to the empty string. -/
def jsStringElem : Json → String
  | .null => ""
  | .bool b => jsString (.bool b)
  | .num n => jsString (.num n)
  | .str s => jsString (.str s)
  | .arr xs => jsString (.arr xs)
  | .obj fields => jsString (.obj fields)

end

/-- JavaScript truthiness of an embedded JSON value. -/
def jsTruthy : Json → Bool
  | .null => false
  | .bool b => b
  | .num n => n != 0
  | .str s => s != ""
  | .arr _ => true
  | .obj _ => true

/-- Property lookup `fields[k]` on an embedded JSON object's field list. -/
def lookupField (fields : List (String × Json)) (k : String) : Option Json :=
  match fields with
  | [] => none
  | (k', v) :: rest => if k' = k then some v else lookupField rest k

/-! ### Label submission (LabelCard.tsx and CaseDetail.tsx `handleLabel`) -/

/-- The three submit actions the `LabelCard` component can trigger: its buttons
call `onSubmit("confirm", note)`, `onSubmit("reject", note)` and
`onSubmit("unsure", note)`. -/
def labelCardActions (note : String) : List (String × String) :=
  [("confirm", note), ("reject", note), ("unsure", note)]

/-- The label vocabulary named by the specification (spec only; for comparison
with the code's vocabulary): `label ∈ \x7bconfirm, reject, needs_more\x7d`. -/
def specLabelVocabulary : List String :=
  ["confirm", "reject", "needs_more"]

/-- Request body built by `handleLabel` in CaseDetail.tsx:
`JSON.stringify({ label, note })`. -/
def labelRequestBody (label note : String) : Json :=
  .obj [("label", .str label), ("note", .str note)]

/-- The POST issued by `handleLabel`: path, method and body. -/
def handleLabelRequest (candidateId label note : String) : String × String × Json :=
  (s!"/api/candidates/{candidateId}/labels", "POST", labelRequestBody label note)

/-- Top-level keys of an embedded JSON object body. -/
def bodyKeys : Json → List String
  | .obj fields => fields.map (·.1)
  | _ => []

/-! ### Status filter (Queue.tsx status select) -/

/-- The options offered by the Queue page's status `<select>`:
`All status` (empty value), `open`, `closed`. -/
def statusFilterOptions : List String := ["", "open", "closed"]

/-- Initial value of the Queue page's status filter state. -/
def defaultStatusFilter : String := "open"

/-- The candidate status vocabulary named by the specification (spec only;
for comparison with the code's filter values). -/
def specStatusVocabulary : List String := ["open", "reviewed", "archived"]

/-! ### apiFetch error handling (frontend/src/api/client.ts) -/

/-- The error value `apiFetch` throws: a human message plus the HTTP status.
It has no `error_code` field. -/
structure ApiError where
  message : String
  status : Option Nat
deriving DecidableEq

/-- The non-ok branch of `apiFetch`: the parsed payload's top-level `detail`
field (when present and truthy) becomes the message via `String(detail)`,
otherwise the message is `Request failed (status).`; the thrown value carries
`\x7bmessage, status\x7d`. -/
def errorFromResponse (status : Nat) (payload : Json) : ApiError :=
  let detail : Option Json :=
    match payload with
    | .obj fields => lookupField fields "detail"
    | _ => none
  match detail with
  | some d =>
      if jsTruthy d then { message := jsString d, status := some status }
      else { message := s!"Request failed ({status}).", status := some status }
  | none => { message := s!"Request failed ({status}).", status := some status }

/-- The daily-limit error payload documented in the repository README. -/
def llmLimitPayload : Json :=
  .obj [("error_code", .str "llm_daily_limit_reached"),
        ("message", .str "LLM daily limit reached.")]

/-! ### The unified event view (`v_events_unified` SQL) -/

/-- A row of one per-event-type source table: shared columns
`ocel_id`, `ocel_time`, `resource`, `lifecycle`. -/
structure SourceRow where
  ocel_id : String
  ocel_time : String
  resource : Option String
  lifecycle : Option String
deriving DecidableEq

/-- A row of the unified event stream:
`\x7bevent_id, activity, ts, resource, lifecycle, raw\x7d`. -/
structure UnifiedEvent where
  event_id : String
  activity : String
  ts : String
  resource : Option String
  lifecycle : Option String
  raw : Option Json

/-- The ten per-event-type source tables the view reads. -/
structure EventTables where
  approvePurchaseOrder : List SourceRow
  approvePurchaseRequisition : List SourceRow
  createGoodsReceipt : List SourceRow
  createInvoiceReceipt : List SourceRow
  createPurchaseOrder : List SourceRow
  createPurchaseRequisition : List SourceRow
  createRequestforQuotation : List SourceRow
  delegatePurchaseRequisitionApproval : List SourceRow
  executePayment : List SourceRow
  performTwoWayMatch : List SourceRow

/-- One SELECT arm of the view: project a source table's rows to the unified
columns, with the table's constant activity label and `NULL AS raw`. -/
def projectTable (activity : String) (rows : List SourceRow) : List UnifiedEvent :=
  rows.map fun r =>
    { event_id := r.ocel_id, activity := activity, ts := r.ocel_time,
      resource := r.resource, lifecycle := r.lifecycle, raw := none }

/-- The constant activity labels of the ten arms, in the view's order. -/
def unifiedActivityLabels : List String :=
  ["ApprovePurchaseOrder", "ApprovePurchaseRequisition", "CreateGoodsReceipt",
   "CreateInvoiceReceipt", "CreatePurchaseOrder", "CreatePurchaseRequisition",
   "CreateRequestforQuotation", "DelegatePurchaseRequisitionApproval",
   "ExecutePayment", "PerformTwoWayMatch"]

/-- The `v_events_unified` view: UNION ALL of the ten projected tables. -/
def v_events_unified (db : EventTables) : List UnifiedEvent :=
  projectTable "ApprovePurchaseOrder" db.approvePurchaseOrder ++
  projectTable "ApprovePurchaseRequisition" db.approvePurchaseRequisition ++
  projectTable "CreateGoodsReceipt" db.createGoodsReceipt ++
  projectTable "CreateInvoiceReceipt" db.createInvoiceReceipt ++
  projectTable "CreatePurchaseOrder" db.createPurchaseOrder ++
  projectTable "CreatePurchaseRequisition" db.createPurchaseRequisition ++
  projectTable "CreateRequestforQuotation" db.createRequestforQuotation ++
  projectTable "DelegatePurchaseRequisitionApproval" db.delegatePurchaseRequisitionApproval ++
  projectTable "ExecutePayment" db.executePayment ++
  projectTable "PerformTwoWayMatch" db.performTwoWayMatch

/-! ### Timeline rendering (frontend/src/components/Timeline.tsx) -/

/-- A timeline entry as rendered by the Timeline component; all fields of the
TypeScript type are optional, plus the placeholder flag. -/
structure TimelineItem where
  event_id : Option String
  activity : Option String
  ts : Option String
  resource : Option String
  lifecycle : Option String
  linked_object_ids : Option (List String)
  placeholder : Bool
deriving DecidableEq

/-- The placeholder entries: one per missing event name, with
`ts = "NOT FOUND"` and the placeholder flag set. -/
def placeholderItems (missingEvents : List String) : List TimelineItem :=
  missingEvents.map fun activity =>
    { event_id := none, activity := some activity, ts := some "NOT FOUND",
      resource := none, lifecycle := none, linked_object_ids := none,
      placeholder := true }

/-- The comparator's timestamp key: `ts` when truthy and not `"NOT FOUND"`,
otherwise null. -/
def tsKey (i : TimelineItem) : Option String :=
  match i.ts with
  | none => none
  | some s => if s = "" ∨ s = "NOT FOUND" then none else some s

/-- The sort relation of the Timeline comparator on index-tagged entries
(`compare(a,b) ≤ 0`): keyed timestamps ascend (string comparison), entries
with a timestamp key come before entries without, and the pre-sort position
breaks all remaining ties. -/
def timelineLE (a b : Nat × TimelineItem) : Prop :=
  match tsKey a.2, tsKey b.2 with
  | some x, some y => x < y ∨ (x = y ∧ a.1 ≤ b.1)
  | some _, none => True
  | none, some _ => False
  | none, none => a.1 ≤ b.1

instance (a b : Nat × TimelineItem) : Decidable (timelineLE a b) := by
  unfold timelineLE
  exact match tsKey a.2, tsKey b.2 with
    | some x, some y => inferInstanceAs (Decidable (x < y ∨ (x = y ∧ a.1 ≤ b.1)))
    | some _, none => .isTrue trivial
    | none, some _ => .isFalse fun h => h
    | none, none => inferInstanceAs (Decidable (a.1 ≤ b.1))

instance : IsTotal (Nat × TimelineItem) timelineLE := by
  constructor
  intro a b
  unfold timelineLE
  rcases tsKey a.2 with _ | x <;> rcases tsKey b.2 with _ | y
  · exact (Nat.le_total a.1 b.1).imp id id
  · exact Or.inr trivial
  · exact Or.inl trivial
  · rcases lt_trichotomy x y with h | h | h
    · exact Or.inl (Or.inl h)
    · rcases Nat.le_total a.1 b.1 with hi | hi
      · exact Or.inl (Or.inr ⟨h, hi⟩)
      · exact Or.inr (Or.inr ⟨h.symm, hi⟩)
    · exact Or.inr (Or.inl h)

instance : IsTrans (Nat × TimelineItem) timelineLE := by
  constructor
  intro a b c hab hbc
  unfold timelineLE at hab hbc ⊢
  rcases hx : tsKey a.2 with _ | x <;> rcases hy : tsKey b.2 with _ | y <;>
    rcases hz : tsKey c.2 with _ | z <;>
    simp only [hx, hy, hz] at hab hbc ⊢
  all_goals try omega
  rcases hab with h | ⟨h, hi⟩ <;> rcases hbc with h' | ⟨h', hi'⟩
  · exact Or.inl (lt_trans h h')
  · exact Or.inl (h'.symm ▸ h)
  · exact Or.inl (h ▸ h')
  · exact Or.inr ⟨h.trans h', hi.trans hi'⟩

/-- The Timeline component's rendering order, on index-tagged entries: the
merged list `items ++ placeholders` is tagged with positions and stably
sorted by the comparator. -/
def timelineOrderIndexed (items : List TimelineItem) (missingEvents : Option (List String)) :
    List (Nat × TimelineItem) :=
  List.insertionSort timelineLE ((items ++ placeholderItems (missingEvents.getD [])).enum)

/-- The entries in the order the Timeline component renders them. -/
def renderedTimeline (items : List TimelineItem) (missingEvents : Option (List String)) :
    List TimelineItem :=
  (timelineOrderIndexed items missingEvents).map (·.2)

/-! ### Candidate queue (frontend/src/pages/Queue.tsx) -/

/-- A candidate row as listed by the Queue page, with the fields its filters
and sorts read; `llm_preview` is flattened into its two read fields. -/
structure Candidate where
  candidate_id : String
  run_id : Option String
  type : String
  anchor_object_id : String
  anchor_object_type : String
  base_conf : ℚ
  final_conf : ℚ
  severity : Option ℚ
  priority_score : Option ℚ
  status : String
  created_at : Option String
  updated_at : Option String
  llm_priority_hint : Option String
  llm_verify_created_at : Option String
deriving DecidableEq

/-- JavaScript `haystack.includes(needle)` on strings. -/
def jsIncludes (haystack needle : String) : Bool :=
  decide (needle.data <:+: haystack.data)

/-- The sort keys of the Queue comparators: `a.severity ?? -1`. -/
def sevVal (c : Candidate) : ℚ := c.severity.getD (-1)

/-- Sort key `a.priority_score ?? -1`. -/
def priVal (c : Candidate) : ℚ := c.priority_score.getD (-1)

/-- Sort key `a.final_conf || 0` (for a JS number this is the number itself,
with `0` mapped to `0`). -/
def confVal (c : Candidate) : ℚ := c.final_conf

/-- Sort key `a.created_at || ""`. -/
def createdVal (c : Candidate) : String := c.created_at.getD ""

/-- Rank used by the `llm_priority` sort: high 0, medium 1, low 2, else 3. -/
def llmRank (hint : Option String) : Nat :=
  if hint = some "high" then 0
  else if hint = some "medium" then 1
  else if hint = some "low" then 2
  else 3

/-- The `newest` comparator as a sort relation (`compare(a,b) ≤ 0`):
created_at descending by string comparison. -/
def newestLE (a b : Candidate) : Prop :=
  createdVal b ≤ createdVal a

/-- The `confidence` comparator as a sort relation: final_conf descending. -/
def confidenceLE (a b : Candidate) : Prop :=
  confVal b ≤ confVal a

/-- The `severity` comparator as a sort relation: severity descending, then
final_conf descending, then created_at descending. -/
def severityLE (a b : Candidate) : Prop :=
  if sevVal a = sevVal b then
    if confVal a = confVal b then createdVal b ≤ createdVal a
    else confVal b < confVal a
  else sevVal b < sevVal a

/-- The `priority` comparator as a sort relation: priority_score descending,
then final_conf descending, then created_at descending. -/
def priorityLE (a b : Candidate) : Prop :=
  if priVal a = priVal b then
    if confVal a = confVal b then createdVal b ≤ createdVal a
    else confVal b < confVal a
  else priVal b < priVal a

/-- The `llm_priority` comparator as a sort relation, with the host's
`new Date(s).getTime()` (0 for a missing or unparsable value) supplied as
`parseTime`: hint rank ascending, then verify time descending, then
final_conf descending, then candidate_id ascending. -/
def llmPriorityLE (parseTime : String → Int) (a b : Candidate) : Prop :=
  let toTime : Candidate → Int := fun c =>
    match c.llm_verify_created_at with
    | none => 0
    | some s => parseTime s
  if llmRank a.llm_priority_hint = llmRank b.llm_priority_hint then
    if toTime a = toTime b then
      if confVal a = confVal b then a.candidate_id ≤ b.candidate_id
      else confVal b < confVal a
    else toTime b < toTime a
  else llmRank a.llm_priority_hint < llmRank b.llm_priority_hint

/-- The fallback comparator (unknown sort value): final_conf descending. -/
def fallbackLE (a b : Candidate) : Prop :=
  confVal b ≤ confVal a

instance : DecidableRel newestLE := fun a b =>
  inferInstanceAs (Decidable (createdVal b ≤ createdVal a))

instance : DecidableRel confidenceLE := fun a b =>
  inferInstanceAs (Decidable (confVal b ≤ confVal a))

instance : DecidableRel severityLE := fun a b => by
  unfold severityLE; infer_instance

instance : DecidableRel priorityLE := fun a b => by
  unfold priorityLE; infer_instance

instance (parseTime : String → Int) : DecidableRel (llmPriorityLE parseTime) := fun a b => by
  unfold llmPriorityLE; infer_instance

instance : DecidableRel fallbackLE := fun a b =>
  inferInstanceAs (Decidable (confVal b ≤ confVal a))

instance : IsTotal Candidate priorityLE := by
  constructor
  intro a b
  unfold priorityLE
  rcases eq_or_ne (priVal a) (priVal b) with h | h
  · rw [if_pos h, if_pos h.symm]
    rcases eq_or_ne (confVal a) (confVal b) with h' | h'
    · rw [if_pos h', if_pos h'.symm]
      exact le_total _ _
    · rw [if_neg h', if_neg (Ne.symm h')]
      exact (h'.lt_or_lt).symm
  · rw [if_neg h, if_neg (Ne.symm h)]
    exact (h.lt_or_lt).symm

instance : IsTrans Candidate priorityLE := by
  constructor
  intro a b c hab hbc
  unfold priorityLE at hab hbc ⊢
  rcases eq_or_ne (priVal a) (priVal b) with hpab | hpab <;>
    rcases eq_or_ne (priVal b) (priVal c) with hpbc | hpbc
  · rw [if_pos hpab] at hab
    rw [if_pos hpbc] at hbc
    rw [if_pos (hpab.trans hpbc)]
    rcases eq_or_ne (confVal a) (confVal b) with hcab | hcab <;>
      rcases eq_or_ne (confVal b) (confVal c) with hcbc | hcbc
    · rw [if_pos hcab] at hab
      rw [if_pos hcbc] at hbc
      rw [if_pos (hcab.trans hcbc)]
      exact le_trans hbc hab
    · rw [if_neg hcbc] at hbc
      rw [if_neg (show confVal a ≠ confVal c from hcab ▸ hcbc)]
      exact lt_of_lt_of_le hbc (le_of_eq hcab.symm)
    · rw [if_neg hcab] at hab
      rw [if_neg (show confVal a ≠ confVal c from fun h => hcab (h.trans hcbc.symm))]
      exact lt_of_le_of_lt (le_of_eq hcbc.symm) hab
    · rw [if_neg hcab] at hab
      rw [if_neg hcbc] at hbc
      rw [if_neg (lt_trans hbc hab).ne']
      exact lt_trans hbc hab
  · rw [if_neg hpbc] at hbc
    have h : priVal c < priVal a := lt_of_lt_of_le hbc (le_of_eq hpab.symm)
    rw [if_neg h.ne']
    exact h
  · rw [if_neg hpab] at hab
    have h : priVal c < priVal a := lt_of_le_of_lt (le_of_eq hpbc.symm) hab
    rw [if_neg h.ne']
    exact h
  · rw [if_neg hpab] at hab
    rw [if_neg hpbc] at hbc
    rw [if_neg (lt_trans hbc hab).ne']
    exact lt_trans hbc hab

/-- Boolean truthiness of an optional JS string (`Boolean(v)`). -/
def strOptTruthy : Option String → Bool
  | none => false
  | some s => s != ""

/-- The `filtered` memo of the Queue page: client-side search and toggle
filters over the fetched page, then the selected client-side sort, realized
as the stable sort the ES2019 `Array.prototype.sort` performs. -/
def queueFiltered (parseTime : String → Int) (search : String)
    (hasLlmOnly highSeverityOnly : Bool) (sort : String)
    (items : List Candidate) : List Candidate :=
  let next := items
  let next := if search = "" then next
    else next.filter fun c => jsIncludes c.candidate_id search
  let next := if hasLlmOnly then next.filter fun c => strOptTruthy c.llm_verify_created_at
    else next
  let next := if highSeverityOnly then next.filter fun c => decide ((7 : ℚ)/10 ≤ sevVal c)
    else next
  if sort = "newest" then List.insertionSort newestLE next
  else if sort = "confidence" then List.insertionSort confidenceLE next
  else if sort = "severity" then List.insertionSort severityLE next
  else if sort = "priority" then List.insertionSort priorityLE next
  else if sort = "llm_priority" then List.insertionSort (llmPriorityLE parseTime) next
  else List.insertionSort fallbackLE next

/-- Initial value of the Queue page's sort state (`useState("priority")`). -/
def defaultSort : String := "priority"

/-- Initial value of the Queue page's search box. -/
def defaultSearch : String := ""

/-! ### Queue pagination (Queue.tsx Prev/Next buttons and offset reset) -/

/-- The page size: `useState(50)`, never changed. -/
def pageLimit : Nat := 50

/-- User interactions that change the pagination offset. -/
inductive QueueEvent where
  | prevClick : QueueEvent
  | nextClick : Nat → QueueEvent
  | typeChange : QueueEvent
  | statusChange : QueueEvent
  | sortChange : QueueEvent

/-- One interaction applied to the offset: Prev is disabled at offset 0 and
otherwise sets `max(0, offset - limit)`; Next is disabled when the current
page has fewer than `limit` items and otherwise adds `limit`; changing the
type, status or sort selection resets the offset to 0. -/
def queueStep (offset : Int) : QueueEvent → Int
  | .prevClick => if offset = 0 then offset else max 0 (offset - pageLimit)
  | .nextClick itemsLen => if itemsLen < pageLimit then offset else offset + pageLimit
  | .typeChange => 0
  | .statusChange => 0
  | .sortChange => 0

/-- The offset after a sequence of interactions, starting from the initial
`useState(0)`. -/
def runQueue (events : List QueueEvent) : Int :=
  events.foldl queueStep 0

/-! ### LLM evidence extraction (frontend/src/components/LLMCard.tsx) -/

/-- The LLM result as received by the LLMCard component (`LLMResponse` in
api/types.ts), with the fields `extractEvidence` reads; `raw_json` is an
optional JSON object given by its field list. -/
structure LLMResponse where
  verdict : Option String
  v_conf : Option Json
  explanation : Option String
  raw_json : Option (List (String × Json))
  evidence_used : Option (List String)
  created_at : Option String
  cached : Option Bool

/-- First entry of the candidate list that is an array, with its elements
converted by `String(value)`; the empty list when none is an array. -/
def firstArrayStrings : List (Option Json) → List String
  | [] => []
  | some (.arr xs) :: _ => xs.map jsString
  | some (.null) :: rest => firstArrayStrings rest
  | some (.bool _) :: rest => firstArrayStrings rest
  | some (.num _) :: rest => firstArrayStrings rest
  | some (.str _) :: rest => firstArrayStrings rest
  | some (.obj _) :: rest => firstArrayStrings rest
  | none :: rest => firstArrayStrings rest

/-- `extractEvidence` from LLMCard.tsx: try `latest?.evidence_used`, then
`raw_json["evidence_used"]`, `raw_json["evidence"]`, `raw_json["evidence_ids"]`
(with `raw = latest?.raw_json || {}`), returning the first that is an array,
elements stringified; otherwise the empty list. -/
def extractEvidence (latest : Option LLMResponse) : List String :=
  let raw : List (String × Json) := (latest.bind (·.raw_json)).getD []
  let entries : List (Option Json) :=
    [(latest.bind (·.evidence_used)).map fun l => Json.arr (l.map Json.str),
     lookupField raw "evidence_used",
     lookupField raw "evidence",
     lookupField raw "evidence_ids"]
  firstArrayStrings entries

/-- Does an optional JSON value pass `Array.isArray`? -/
def isJsonArray : Option Json → Bool
  | some (.arr _) => true
  | _ => false

/-! ### Evidence-scope enforcement (Verification Orchestrator) -/

/-- Verifier verdicts. -/
inductive Verdict where
  | confirm : Verdict
  | uncertain : Verdict
  | reject : Verdict
deriving DecidableEq

/-- A validated verify output as stored, with the fields the evidence-scope
policy touches. -/
structure VerifyOutput where
  verdict : Verdict
  v_conf : ℚ
  explanation : String
  evidence_used : Option (List String)
  cautions : List String
deriving DecidableEq

/-- The caution note recorded when evidence scope is violated. -/
def evidenceCaution : String :=
  "evidence_used missing or outside evidence scope; verdict downgraded to uncertain"

/-- Modelled from the spec: the backend Verification Orchestrator's
evidence-scope enforcement is not under src/ (the repository README only
documents the policy). Per spec section 4.5 and the README's LLM safety
policy: `evidence_used` must be a subset of the candidate's
`evidence_event_ids`; if it is missing or not a subset, the verdict is
forcibly downgraded to uncertain/inconclusive, a caution note is appended to
the stored result, and only in-scope evidence ids are kept so that every
stored result satisfies `evidence_used ⊆ evidence_event_ids`. -/
def enforceEvidenceScope (evidence_event_ids : List String)
    (out : VerifyOutput) : VerifyOutput :=
  match out.evidence_used with
  | none =>
      { out with verdict := .uncertain, evidence_used := some [],
                 cautions := out.cautions ++ [evidenceCaution] }
  | some used =>
      if used.all fun e => decide (e ∈ evidence_event_ids) then out
      else
        { out with verdict := .uncertain,
                   evidence_used := some (used.filter fun e => decide (e ∈ evidence_event_ids)),
                   cautions := out.cautions ++ [evidenceCaution] }

/-! ## Theorems -/

/-- C2: the unified event stream `v_events_unified` equals the multiset union
of the ten per-event-type source tables' rows, each row projected to the
columns event_id, activity, ts, resource, lifecycle, raw with the activity
set to the single constant label of its source table, and the ten labels are
pairwise distinct. -/
theorem v_events_unified_is_union (db : EventTables) (label : String)
    (rows : List SourceRow) :
    (↑(v_events_unified db) : Multiset UnifiedEvent) =
        ↑(projectTable "ApprovePurchaseOrder" db.approvePurchaseOrder) +
        ↑(projectTable "ApprovePurchaseRequisition" db.approvePurchaseRequisition) +
        ↑(projectTable "CreateGoodsReceipt" db.createGoodsReceipt) +
        ↑(projectTable "CreateInvoiceReceipt" db.createInvoiceReceipt) +
        ↑(projectTable "CreatePurchaseOrder" db.createPurchaseOrder) +
        ↑(projectTable "CreatePurchaseRequisition" db.createPurchaseRequisition) +
        ↑(projectTable "CreateRequestforQuotation" db.createRequestforQuotation) +
        ↑(projectTable "DelegatePurchaseRequisitionApproval" db.delegatePurchaseRequisitionApproval) +
        ↑(projectTable "ExecutePayment" db.executePayment) +
        ↑(projectTable "PerformTwoWayMatch" db.performTwoWayMatch)
    ∧ (projectTable label rows).map (·.activity) = rows.map (fun _ => label)
    ∧ unifiedActivityLabels.Nodup := by
  refine ⟨?_, ?_, ?_⟩
  · simp only [v_events_unified, ← Multiset.coe_add]
  · rw [projectTable, List.map_map]
    rfl
  · decide

/-- C3 counterexample: the LabelCard's third button submits the label value
`unsure`, which is not in the specified vocabulary confirm, reject,
needs_more. -/
theorem labelCard_submits_unsure :
    ("unsure", "") ∈ labelCardActions "" ∧ "unsure" ∉ specLabelVocabulary := by
  exact ⟨by simp [labelCardActions], by decide⟩

/-- C3 (amended): every label submitted through the LabelCard buttons has its
label value drawn from the set confirm, reject, unsure. -/
theorem labelCard_label_values (note : String) (p : String × String)
    (hp : p ∈ labelCardActions note) :
    p.1 ∈ ["confirm", "reject", "unsure"] := by
  simp only [labelCardActions, List.mem_cons, List.not_mem_nil, or_false] at hp
  rcases hp with h | h | h <;> subst h <;> simp

/-- Witness for C3: the confirm button's submission satisfies the amended
vocabulary. -/
theorem labelCard_label_values_witness :
    ("confirm", "") ∈ labelCardActions "" ∧
      "confirm" ∈ ["confirm", "reject", "unsure"] :=
  ⟨by simp [labelCardActions], labelCard_label_values "" ("confirm", "")
    (by simp [labelCardActions])⟩

/-- C5 counterexample: the body `handleLabel` POSTs to the labels endpoint has
exactly the keys label and note; it carries neither reason_code nor
reviewer. -/
theorem labelBody_missing_fields :
    bodyKeys (labelRequestBody "confirm" "looks duplicated") = ["label", "note"] ∧
    "reason_code" ∉ bodyKeys (labelRequestBody "confirm" "looks duplicated") ∧
    "reviewer" ∉ bodyKeys (labelRequestBody "confirm" "looks duplicated") := by
  refine ⟨rfl, ?_, ?_⟩ <;> decide

/-- C5 (amended): every label-submission request POSTed by `handleLabel` is a
POST to the candidate's labels path whose body carries exactly the fields
label and note. -/
theorem labelRequest_shape (candidateId label note : String) :
    (handleLabelRequest candidateId label note).1 =
        s!"/api/candidates/{candidateId}/labels" ∧
    (handleLabelRequest candidateId label note).2.1 = "POST" ∧
    bodyKeys (handleLabelRequest candidateId label note).2.2 = ["label", "note"] :=
  ⟨rfl, rfl, rfl⟩

/-- C6 counterexample: on a failed request whose payload is the documented
daily-limit error shape, `apiFetch` surfaces only the generic
`Request failed (429).` message and the numeric status; the payload's
error_code and message fields are dropped (only a `detail` field is read). -/
theorem apiError_drops_error_code :
    errorFromResponse 429 llmLimitPayload =
      { message := "Request failed (429).", status := some 429 } ∧
    "Request failed (429)." ≠ "LLM daily limit reached." := by
  exact ⟨rfl, by decide⟩

/-- C6 (amended): the failure `apiFetch` surfaces carries a human-readable
message plus the HTTP status, not an error_code: a payload of the specified
shape with error_code and message fields yields the generic
`Request failed (status).` message, while a truthy top-level `detail` string
becomes the message verbatim. -/
theorem apiError_shape (status : Nat) (ec msg d : String) (hd : d ≠ "") :
    errorFromResponse status (.obj [("error_code", .str ec), ("message", .str msg)]) =
      { message := s!"Request failed ({status}).", status := some status } ∧
    errorFromResponse status (.obj [("detail", .str d)]) =
      { message := d, status := some status } := by
  constructor
  · rfl
  · have ht : jsTruthy (.str d) = true := by
      simp [jsTruthy, hd]
    simp only [errorFromResponse, lookupField, if_pos rfl, ht, if_true]
    simp [jsString]

/-- Witness for C6: the amended shape at a concrete failed request. -/
theorem apiError_shape_witness :
    errorFromResponse 404 (.obj [("error_code", .str "not_found"),
        ("message", .str "missing")]) =
      { message := "Request failed (404).", status := some 404 } ∧
    errorFromResponse 404 (.obj [("detail", .str "Candidate not found")]) =
      { message := "Candidate not found", status := some 404 } :=
  apiError_shape 404 "not_found" "missing" "Candidate not found" (by decide)

/-- C7 counterexample: the Queue's status filter offers the value `closed`,
which is not in the specified status set open, reviewed, archived (and is
not the empty all-status value). -/
theorem statusFilter_offers_closed :
    "closed" ∈ statusFilterOptions ∧ "closed" ∉ specStatusVocabulary ∧
      ("closed" : String) ≠ "" := by
  refine ⟨?_, ?_, ?_⟩ <;> decide

/-- C7 (amended): every status value the Queue's status filter offers is
either the empty all-status value or drawn from the set open, closed; the
filter's initial value is open. -/
theorem statusFilter_values (s : String) (hs : s ∈ statusFilterOptions) :
    (s = "" ∨ s ∈ ["open", "closed"]) ∧ defaultStatusFilter = "open" := by
  refine ⟨?_, rfl⟩
  simp only [statusFilterOptions, List.mem_cons, List.not_mem_nil, or_false] at hs
  rcases hs with h | h | h <;> subst h <;> simp

/-- Witness for C7: the filter value open satisfies the amended statement. -/
theorem statusFilter_values_witness :
    "open" ∈ statusFilterOptions ∧
      (("open" : String) = "" ∨ "open" ∈ ["open", "closed"]) :=
  ⟨by decide, (statusFilter_values "open" (by decide)).1⟩

/-- A candidate with high priority score and low final confidence. -/
def candA : Candidate :=
  { candidate_id := "a", run_id := none, type := "maverick_buying",
    anchor_object_id := "purchase_order:1", anchor_object_type := "purchase_order",
    base_conf := 0, final_conf := 0, severity := none, priority_score := some 1,
    status := "open", created_at := none, updated_at := none,
    llm_priority_hint := none, llm_verify_created_at := none }

/-- A candidate with low priority score and high final confidence. -/
def candB : Candidate :=
  { candidate_id := "b", run_id := none, type := "maverick_buying",
    anchor_object_id := "purchase_order:2", anchor_object_type := "purchase_order",
    base_conf := 0, final_conf := 1, severity := none, priority_score := some 0,
    status := "open", created_at := none, updated_at := none,
    llm_priority_hint := none, llm_verify_created_at := none }

/-- C4 counterexample: with no sort chosen (the initial state is the
`priority` sort) the Queue puts the high-priority low-confidence candidate
before the low-priority high-confidence one, so the presented order is not
final confidence descending. -/
theorem queue_default_sort_not_final_conf :
    queueFiltered (fun _ => 0) defaultSearch false false defaultSort [candB, candA] =
        [candA, candB] ∧
    candA.final_conf < candB.final_conf := by
  exact ⟨by decide, by decide⟩

/-- C4 (amended): when no sort order has been chosen, the Queue's sort state
is `priority` and the items presented are the fetched page stably sorted by
the priority comparator: priority_score descending (missing as -1), ties by
final confidence descending, then created_at descending. -/
theorem queue_default_sort_is_priority (parseTime : String → Int)
    (items : List Candidate) :
    defaultSort = "priority"
    ∧ List.Perm (queueFiltered parseTime defaultSearch false false defaultSort items) items
    ∧ (queueFiltered parseTime defaultSearch false false defaultSort items).Sorted
        priorityLE := by
  have hq : queueFiltered parseTime defaultSearch false false defaultSort items =
      List.insertionSort priorityLE items := by
    simp [queueFiltered, defaultSort, defaultSearch]
  exact ⟨rfl, hq ▸ List.perm_insertionSort priorityLE items,
    hq ▸ List.sorted_insertionSort priorityLE items⟩

/-- C10: throughout any sequence of Prev clicks, Next clicks and type, status
or sort changes, the Queue's pagination offset stays a non-negative multiple
of the page limit 50; an enabled Prev moves the offset to max(0, offset-50)
(and at 0 the disabled button leaves it at 0), Next adds 50 exactly when the
current page holds at least the full limit of items, and any type, status or
sort change resets the offset to 0. -/
theorem queue_pagination_spec (events : List QueueEvent) :
    (0 ≤ runQueue events ∧ runQueue events % (pageLimit : Int) = 0)
    ∧ (∀ o : Int, queueStep o .prevClick = max 0 (o - pageLimit))
    ∧ (∀ o : Int, queueStep o .typeChange = 0 ∧ queueStep o .statusChange = 0
        ∧ queueStep o .sortChange = 0)
    ∧ (∀ (o : Int) (n : Nat), pageLimit ≤ n → queueStep o (.nextClick n) = o + pageLimit)
    ∧ (∀ (o : Int) (n : Nat), n < pageLimit → queueStep o (.nextClick n) = o) := by
  have step_inv : ∀ (o : Int) (e : QueueEvent), 0 ≤ o → o % 50 = 0 →
      0 ≤ queueStep o e ∧ queueStep o e % 50 = 0 := by
    intro o e h1 h2
    cases e with
    | prevClick =>
        by_cases h : o = 0
        · simp [queueStep, h]
        · simp only [queueStep, if_neg h, pageLimit]
          constructor
          · exact le_max_left 0 _
          · rcases le_or_lt 50 o with h5 | h5
            · rw [max_eq_right (by omega)]
              omega
            · rw [max_eq_left (by omega)]
              omega
    | nextClick n =>
        by_cases h : n < 50
        · simp only [queueStep, pageLimit, if_pos h]
          exact ⟨h1, h2⟩
        · simp only [queueStep, pageLimit]
          rw [if_neg (by omega)]
          omega
    | typeChange => simp [queueStep]
    | statusChange => simp [queueStep]
    | sortChange => simp [queueStep]
  have inv : ∀ (es : List QueueEvent) (o : Int), 0 ≤ o → o % 50 = 0 →
      0 ≤ es.foldl queueStep o ∧ (es.foldl queueStep o) % 50 = 0 := by
    intro es
    induction es with
    | nil => intro o h1 h2; exact ⟨h1, h2⟩
    | cons e es ih =>
        intro o h1 h2
        rw [List.foldl_cons]
        exact ih _ (step_inv o e h1 h2).1 (step_inv o e h1 h2).2
  refine ⟨?_, ?_, ?_, ?_, ?_⟩
  · exact inv events 0 le_rfl rfl
  · intro o
    by_cases h : o = 0
    · simp only [queueStep, if_pos h, h, pageLimit]
      omega
    · simp [queueStep, h]
  · intro o
    exact ⟨rfl, rfl, rfl⟩
  · intro o n hn
    simp only [queueStep]
    rw [if_neg (by omega)]
  · intro o n hn
    simp only [queueStep, if_pos hn]

/-- Witness for C10: the Next-button behaviors at concrete offsets. -/
theorem queue_pagination_spec_witness :
    (pageLimit ≤ 50 ∧ queueStep 100 (.nextClick 50) = 100 + pageLimit)
    ∧ (3 < pageLimit ∧ queueStep 100 (.nextClick 3) = 100) :=
  ⟨⟨by decide, (queue_pagination_spec []).2.2.2.1 100 50 (by decide)⟩,
   ⟨by decide, (queue_pagination_spec []).2.2.2.2 100 3 (by decide)⟩⟩

/-- C8: the rendered timeline is a permutation of the input items plus
exactly one placeholder per missing event name; it is sorted by the
comparator relation, so entries with a timestamp key precede entries
without one, timestamped entries appear in non-decreasing timestamp order,
and entries with equal keys (including both lacking a timestamp) keep their
pre-sort relative order; being a pure function of its inputs, the same
inputs always produce the same order. -/
theorem timeline_render_spec (items : List TimelineItem)
    (missing : Option (List String)) :
    List.Perm (renderedTimeline items missing)
        (items ++ placeholderItems (missing.getD []))
    ∧ (placeholderItems (missing.getD [])).map (·.activity)
        = (missing.getD []).map some
    ∧ (timelineOrderIndexed items missing).Sorted timelineLE
    ∧ (renderedTimeline items missing).Pairwise
        (fun a b => tsKey a = none → tsKey b = none)
    ∧ (renderedTimeline items missing).Pairwise
        (fun a b => ∀ x y, tsKey a = some x → tsKey b = some y → x ≤ y)
    ∧ (timelineOrderIndexed items missing).Pairwise
        (fun a b => tsKey a.2 = tsKey b.2 → a.1 ≤ b.1) := by
  have hsorted : (timelineOrderIndexed items missing).Pairwise timelineLE :=
    List.sorted_insertionSort timelineLE _
  have himp1 : ∀ a b : Nat × TimelineItem, timelineLE a b →
      tsKey a.2 = none → tsKey b.2 = none := by
    intro a b hab h
    unfold timelineLE at hab
    rcases hx : tsKey a.2 with _ | x
    · rcases hz : tsKey b.2 with _ | z
      · rfl
      · rw [hx, hz] at hab
        exact hab.elim
    · rw [hx] at h
      cases h
  have himp2 : ∀ a b : Nat × TimelineItem, timelineLE a b →
      ∀ x y, tsKey a.2 = some x → tsKey b.2 = some y → x ≤ y := by
    intro a b hab x y hx hy
    unfold timelineLE at hab
    rw [hx, hy] at hab
    rcases hab with h | ⟨h, _⟩
    · exact le_of_lt h
    · exact le_of_eq h
  have himp3 : ∀ a b : Nat × TimelineItem, timelineLE a b →
      tsKey a.2 = tsKey b.2 → a.1 ≤ b.1 := by
    intro a b hab h
    unfold timelineLE at hab
    rcases hx : tsKey a.2 with _ | x
    · rw [hx] at h
      rw [hx, ← h] at hab
      exact hab
    · rw [hx] at h
      rw [hx, ← h] at hab
      rcases hab with h' | ⟨_, hi⟩
      · exact absurd h' (lt_irrefl x)
      · exact hi
  refine ⟨?_, ?_, hsorted, ?_, ?_, ?_⟩
  · have hperm : List.Perm (timelineOrderIndexed items missing)
        ((items ++ placeholderItems (missing.getD [])).enum) :=
      List.perm_insertionSort timelineLE _
    have := hperm.map (·.2)
    rwa [List.enum_map_snd] at this
  · rw [placeholderItems, List.map_map]
    rfl
  · rw [renderedTimeline, List.pairwise_map]
    exact hsorted.imp (fun hab => himp1 _ _ hab)
  · rw [renderedTimeline, List.pairwise_map]
    exact hsorted.imp (fun hab => himp2 _ _ hab)
  · exact hsorted.imp (fun hab => himp3 _ _ hab)

/-- C9: extractEvidence returns the elements of the first field among
`latest.evidence_used`, `raw_json.evidence_used`, `raw_json.evidence`,
`raw_json.evidence_ids` (in that precedence order) that is an array, each
element converted to a string; when none of these is an array, including
when the response is absent, it returns the empty list. -/
theorem extractEvidence_spec (resp : Option LLMResponse) :
    (resp = none → extractEvidence resp = [])
    ∧ ∀ r, resp = some r →
        ((∀ l, r.evidence_used = some l → extractEvidence resp = l)
        ∧ (r.evidence_used = none →
            ((∀ xs, lookupField (r.raw_json.getD []) "evidence_used" = some (.arr xs) →
                extractEvidence resp = xs.map jsString)
            ∧ (isJsonArray (lookupField (r.raw_json.getD []) "evidence_used") = false →
                ((∀ xs, lookupField (r.raw_json.getD []) "evidence" = some (.arr xs) →
                    extractEvidence resp = xs.map jsString)
                ∧ (isJsonArray (lookupField (r.raw_json.getD []) "evidence") = false →
                    ((∀ xs, lookupField (r.raw_json.getD []) "evidence_ids" = some (.arr xs) →
                        extractEvidence resp = xs.map jsString)
                    ∧ (isJsonArray (lookupField (r.raw_json.getD []) "evidence_ids") = false →
                        extractEvidence resp = [])))))))) := by
  have skip : ∀ (e : Option Json) (rest : List (Option Json)),
      isJsonArray e = false →
      firstArrayStrings (e :: rest) = firstArrayStrings rest := by
    intro e rest h
    rcases e with _ | j
    · rfl
    · rcases j <;> first | rfl | exact absurd h (by simp [isJsonArray])
  constructor
  · intro h
    subst h
    rfl
  · intro r hr
    subst hr
    have hext : extractEvidence (some r) = firstArrayStrings
        [(r.evidence_used).map (fun l => Json.arr (l.map Json.str)),
         lookupField (r.raw_json.getD []) "evidence_used",
         lookupField (r.raw_json.getD []) "evidence",
         lookupField (r.raw_json.getD []) "evidence_ids"] := rfl
    constructor
    · intro l hl
      rw [hext, hl]
      show (l.map Json.str).map jsString = l
      rw [List.map_map]
      have : (jsString ∘ Json.str) = id := by
        funext s
        simp [jsString]
      rw [this, List.map_id]
    · intro hnone
      rw [hnone] at hext
      rw [Option.map_none'] at hext
      rw [skip none _ rfl] at hext
      constructor
      · intro xs hxs
        rw [hext, hxs]
        rfl
      · intro h1
        rw [skip _ _ h1] at hext
        constructor
        · intro xs hxs
          rw [hext, hxs]
          rfl
        · intro h2
          rw [skip _ _ h2] at hext
          constructor
          · intro xs hxs
            rw [hext, hxs]
            rfl
          · intro h3
            rw [skip _ _ h3] at hext
            exact hext

/-- A sample verify response whose typed evidence_used is absent, whose
raw_json carries a non-array evidence_used and an array evidence field. -/
def sampleLLMResponse : LLMResponse :=
  { verdict := some "uncertain", v_conf := none, explanation := none,
    raw_json := some [("evidence_used", .str "oops"),
                      ("evidence", .arr [.str "event:1", .str "event:2"])],
    evidence_used := none, created_at := none, cached := none }

/-- Witness for C9: on the sample response the second raw field in the
precedence order is the first array, and its elements are returned as
strings. -/
theorem extractEvidence_spec_witness :
    extractEvidence (some sampleLLMResponse) = ["event:1", "event:2"] := by
  have h := ((((extractEvidence_spec (some sampleLLMResponse)).2
      sampleLLMResponse rfl).2 rfl).2 rfl).1 [.str "event:1", .str "event:2"] rfl
  simpa [jsString] using h

/-- C1: after the modelled evidence-scope enforcement, every stored
evidence id is in the candidate's evidence_event_ids; when the verifier
output's evidence_used is missing or not such a subset, the stored verdict
is downgraded to uncertain and the caution note is appended, and an
in-scope output is stored unchanged. -/
theorem evidence_scope_enforced (ids : List String) (out : VerifyOutput) :
    (∀ e ∈ (enforceEvidenceScope ids out).evidence_used.getD [], e ∈ ids)
    ∧ (out.evidence_used = none →
        (enforceEvidenceScope ids out).verdict = .uncertain ∧
        (enforceEvidenceScope ids out).cautions = out.cautions ++ [evidenceCaution])
    ∧ (∀ used, out.evidence_used = some used → ¬ used ⊆ ids →
        (enforceEvidenceScope ids out).verdict = .uncertain ∧
        (enforceEvidenceScope ids out).cautions = out.cautions ++ [evidenceCaution])
    ∧ (∀ used, out.evidence_used = some used → used ⊆ ids →
        enforceEvidenceScope ids out = out) := by
  obtain ⟨v, vc, ex, ev, ca⟩ := out
  rcases ev with _ | used
  · refine ⟨?_, fun _ => ⟨rfl, rfl⟩, ?_, ?_⟩
    · intro e he
      exact absurd he (List.not_mem_nil e)
    · intro used h
      cases h
    · intro used h
      cases h
  · have hcond : (used.all fun e => decide (e ∈ ids)) = true ↔ used ⊆ ids := by
      constructor
      · intro hc x hx
        exact of_decide_eq_true (List.all_eq_true.mp hc x hx)
      · intro hc
        exact List.all_eq_true.mpr fun x hx => decide_eq_true (hc hx)
    by_cases hc : (used.all fun e => decide (e ∈ ids)) = true
    · have hused : used ⊆ ids := hcond.mp hc
      have henf : enforceEvidenceScope ids ⟨v, vc, ex, some used, ca⟩ =
          ⟨v, vc, ex, some used, ca⟩ := by
        simp only [enforceEvidenceScope]
        rw [if_pos hc]
      refine ⟨?_, ?_, ?_, fun u hu hs => henf⟩
      · intro e he
        rw [henf] at he
        exact hused he
      · intro h
        cases h
      · intro u hu hnsub
        injection hu with hu
        subst hu
        exact absurd hused hnsub
    · have henf : enforceEvidenceScope ids ⟨v, vc, ex, some used, ca⟩ =
          ⟨.uncertain, vc, ex, some (used.filter fun e => decide (e ∈ ids)),
            ca ++ [evidenceCaution]⟩ := by
        simp only [enforceEvidenceScope]
        rw [if_neg hc]
      refine ⟨?_, ?_, fun u hu hns => ?_, fun u hu hsub' => ?_⟩
      · intro e he
        rw [henf] at he
        exact of_decide_eq_true (List.mem_filter.mp he).2
      · intro h
        cases h
      · rw [henf]
        exact ⟨rfl, rfl⟩
      · injection hu with hu
        subst hu
        exact absurd (hcond.mpr hsub') hc

/-- A verifier output citing an out-of-scope evidence id. -/
def outOfScopeOutput : VerifyOutput :=
  { verdict := .confirm, v_conf := 0, explanation := "duplicate payment",
    evidence_used := some ["event:1", "event:9"], cautions := [] }

/-- Witness for C1: an output citing event:9 against evidence scope
[event:1] is stored downgraded to uncertain with the caution appended. -/
theorem evidence_scope_enforced_witness :
    (enforceEvidenceScope ["event:1"] outOfScopeOutput).verdict = .uncertain ∧
    (enforceEvidenceScope ["event:1"] outOfScopeOutput).cautions = [evidenceCaution] := by
  have h := (evidence_scope_enforced ["event:1"] outOfScopeOutput).2.2.1
    ["event:1", "event:9"] rfl
    (fun hsub => (by decide : ("event:9" : String) ∉ ["event:1"]) (hsub (by decide)))
  simpa using h

end OcelHitl
